import Mathlib

/-!
Shallow embedding of `iocore/net/quic/QUICAltConnectionManager.cc` (Apache
Traffic Server): the coordinator for alternate QUIC connection ids.

Modelling conventions:
* A connection id (`QUICConnectionId`) is its byte list; `ZERO()` is the
  zero-length id `[]`.
* `QUICStatelessResetToken token(conn_id, instance_id)` is an external
  derivation primitive; we model the token as the pair of its inputs
  (constructor `derived`), plus `empty` for the `{}` default used for the
  seeded initial remote entry, and `raw` for tokens carried verbatim in
  inbound frames.
* `conn_id.randomize()` draws from an external RNG; we thread an explicit
  stream `rng : Nat -> QUICConnectionId` indexed by a counter `rng_idx`
  kept in the state.
* `_is_level_matched` lives in a base class outside this translation unit;
  per the spec the eligibility policy is external, so the frame-gate
  functions take it as a function argument.
* `frame->size()` is an external size query on constructed frames; the
  frame-gate functions take it as a function argument `frame_size`.
* The fixed-size C array `_alt_quic_connection_ids_local` (allocated with
  `ats_malloc`, uninitialized until `_init_alt_connection_ids` runs) is
  modelled as a list that is empty until initialization fills it with
  exactly `_nids` entries.
* The external `QUICConnectionTable` is modelled as the list of ids this
  coordinator inserted into it.
* Modelled from the spec: the header (not part of the sources here)
  initializes `_alt_quic_connection_id_seq_num`; per the spec sequence 0
  is never a local-pool member and the counter pre-increments, so it
  starts at 0 and the first issued local sequence number is 1. Likewise
  `_need_advertise` starts false and `_preferred_address` starts absent.
-/

namespace QUICAltCon

/-- A connection id as its byte sequence; `QUICConnectionId::ZERO()` is the
zero-length id. -/
abbrev QUICConnectionId := List Nat

def QUICConnectionId.ZERO : QUICConnectionId := []

/-- Stateless reset token. `derived cid iid` models the external derivation
`QUICStatelessResetToken(conn_id, instance_id)`; `empty` models the `{}`
default of the seeded initial remote entry; `raw` models a token carried in
an inbound NEW_CONNECTION_ID frame. -/
inductive QUICStatelessResetToken where
  | empty : QUICStatelessResetToken
  | derived (cid : QUICConnectionId) (instance_id : Nat) : QUICStatelessResetToken
  | raw (v : Nat) : QUICStatelessResetToken
deriving DecidableEq, Repr

inductive QUICFrameType where
  | NEW_CONNECTION_ID : QUICFrameType
  | RETIRE_CONNECTION_ID : QUICFrameType
deriving DecidableEq, Repr

inductive QUICTransErrorCode where
  | PROTOCOL_VIOLATION : QUICTransErrorCode
deriving DecidableEq, Repr

/-- The `QUICConnectionError` produced by this file: an error code plus the
offending frame type (the human-readable reason string is dropped). -/
structure QUICConnectionError where
  code : QUICTransErrorCode
  frame_type : QUICFrameType
deriving DecidableEq, Repr

/-- The two frame kinds this manager produces and consumes.
`new_connection_id` carries the fields the manager reads
(`frame.sequence()`, `frame.connection_id()`, `frame.stateless_reset_token()`);
`retire_connection_id` carries `frame.seq_num()`. -/
inductive QUICFrame where
  | new_connection_id (seq : Nat) (cid : QUICConnectionId)
      (token : QUICStatelessResetToken) : QUICFrame
  | retire_connection_id (seq_num : Nat) : QUICFrame
deriving DecidableEq, Repr

/-- Encryption levels are opaque here; eligibility is queried through an
external `is_level_matched` predicate. -/
abbrev QUICEncryptionLevel := Nat

/-- Network endpoint descriptor (opaque). -/
abbrev IpEndpoint := Nat

inductive NetVConnectionDir where
  | NET_VCONNECTION_IN : NetVConnectionDir
  | NET_VCONNECTION_OUT : NetVConnectionDir
deriving DecidableEq, Repr

/-- Source `AltConnectionInfo`: sequence number, id, token, and the boolean that the
source keeps in a union: `advertised` for local entries, `used` for remote
entries (`flag` is that shared storage). -/
structure AltConnectionInfo where
  seq_num : Nat
  id : QUICConnectionId
  token : QUICStatelessResetToken
  flag : Bool
deriving DecidableEq, Repr

def AltConnectionInfo.advertised (e : AltConnectionInfo) : Bool := e.flag

def AltConnectionInfo.used (e : AltConnectionInfo) : Bool := e.flag

/-- State of `QUICAltConnectionManager`. -/
structure QUICAltConnectionManager where
  instance_id : Nat
  nids : Nat
  direction : NetVConnectionDir
  alt_quic_connection_ids_remote : List AltConnectionInfo
  alt_quic_connection_ids_local : List AltConnectionInfo
  alt_quic_connection_id_seq_num : Nat
  need_advertise : Bool
  retired_seq_nums : List Nat
  preferred_address : Option (IpEndpoint × QUICConnectionId × QUICStatelessResetToken)
  ctable : List QUICConnectionId
  rng_idx : Nat
deriving DecidableEq, Repr

namespace QUICAltConnectionManager

/-- Constructor taking the peer's initial connection id and an optional
already-resolved preferred address (cid, token). Seeds the remote list with
sequence 0 (flagged used) and, when available, the preferred address at
sequence 1; leaves the local array unpopulated. -/
def mkWithPreferredAddress (direction : NetVConnectionDir)
    (peer_initial_cid : QUICConnectionId) (instance_id : Nat) (num_alt_con : Nat)
    (pa : Option (QUICConnectionId × QUICStatelessResetToken)) :
    QUICAltConnectionManager :=
  { instance_id := instance_id
    nids := num_alt_con
    direction := direction
    alt_quic_connection_ids_remote :=
      ⟨0, peer_initial_cid, QUICStatelessResetToken.empty, true⟩ ::
        (match pa with
         | some (cid, token) => [⟨1, cid, token, false⟩]
         | none => [])
    alt_quic_connection_ids_local := []
    alt_quic_connection_id_seq_num := 0
    need_advertise := false
    retired_seq_nums := []
    preferred_address := none
    ctable := []
    rng_idx := 0 }

/-- Source `_generate_next_alt_con_info`: draw a fresh id from the RNG stream,
derive its token, pre-increment the sequence counter, and register the id in
the connection table when this endpoint accepts inbound connections. -/
def generate_next_alt_con_info (rng : Nat → QUICConnectionId)
    (st : QUICAltConnectionManager) :
    QUICAltConnectionManager × AltConnectionInfo :=
  let conn_id := rng st.rng_idx
  let token := QUICStatelessResetToken.derived conn_id st.instance_id
  let seq := st.alt_quic_connection_id_seq_num + 1
  let aci : AltConnectionInfo := ⟨seq, conn_id, token, false⟩
  let ct :=
    if st.direction = NetVConnectionDir.NET_VCONNECTION_IN then
      st.ctable ++ [conn_id]
    else st.ctable
  ({ st with
      alt_quic_connection_id_seq_num := seq
      ctable := ct
      rng_idx := st.rng_idx + 1 }, aci)

/-- Generate `n` consecutive entries, threading the state. -/
def generate_alt_con_infos (rng : Nat → QUICConnectionId)
    (st : QUICAltConnectionManager) :
    Nat → QUICAltConnectionManager × List AltConnectionInfo
  | 0 => (st, [])
  | Nat.succ n =>
    let p := generate_next_alt_con_info rng st
    let q := generate_alt_con_infos rng p.1 n
    (q.1, p.2 :: q.2)

/-- Source `_init_alt_connection_ids`: populate every local slot with a freshly
generated entry. With a preferred endpoint, the first entry is flagged
`advertised = true` immediately (it travels in transport parameters) and is
bound into the preferred-address record. Finally raises `_need_advertise`. -/
def init_alt_connection_ids (rng : Nat → QUICConnectionId)
    (preferred_endpoint : Option IpEndpoint)
    (st : QUICAltConnectionManager) : QUICAltConnectionManager :=
  match preferred_endpoint with
  | some ep =>
    let p := generate_next_alt_con_info rng st
    let first : AltConnectionInfo := { p.2 with flag := true }
    let st1 := { p.1 with preferred_address := some (ep, p.2.id, p.2.token) }
    let q := generate_alt_con_infos rng st1 (st.nids - 1)
    { q.1 with
        alt_quic_connection_ids_local := first :: q.2
        need_advertise := true }
  | none =>
    let q := generate_alt_con_infos rng st st.nids
    { q.1 with
        alt_quic_connection_ids_local := q.2
        need_advertise := true }

/-- Constructor taking the peer's initial connection id and an optional
local preferred endpoint; populates the local array immediately. -/
def mkWithPreferredEndpoint (rng : Nat → QUICConnectionId)
    (direction : NetVConnectionDir) (peer_initial_cid : QUICConnectionId)
    (instance_id : Nat) (num_alt_con : Nat)
    (preferred_endpoint : Option IpEndpoint) : QUICAltConnectionManager :=
  init_alt_connection_ids rng preferred_endpoint
    (mkWithPreferredAddress direction peer_initial_cid instance_id num_alt_con none)

/-- Source `_update_alt_connection_id(chosen_seq_num)`: regenerate the first local
slot whose sequence number matches; sequence 0 matching no slot is a no-op
success; any other unmatched number is a failure. -/
def update_alt_connection_id (rng : Nat → QUICConnectionId)
    (chosen_seq_num : Nat) (st : QUICAltConnectionManager) :
    QUICAltConnectionManager × Bool :=
  match st.alt_quic_connection_ids_local.findIdx?
      (fun e => e.seq_num == chosen_seq_num) with
  | some i =>
    let p := generate_next_alt_con_info rng st
    ({ p.1 with
        alt_quic_connection_ids_local := p.1.alt_quic_connection_ids_local.set i p.2
        need_advertise := true }, true)
  | none =>
    if chosen_seq_num == 0 then (st, true) else (st, false)

/-- Source `_register_remote_connection_id`: reject a zero-length id with a
protocol violation, otherwise append a `used = false` entry. -/
def register_remote_connection_id (frame_seq : Nat)
    (frame_cid : QUICConnectionId) (frame_token : QUICStatelessResetToken)
    (st : QUICAltConnectionManager) :
    QUICAltConnectionManager × Option QUICConnectionError :=
  if frame_cid = QUICConnectionId.ZERO then
    (st, some ⟨QUICTransErrorCode.PROTOCOL_VIOLATION, QUICFrameType.NEW_CONNECTION_ID⟩)
  else
    ({ st with
        alt_quic_connection_ids_remote :=
          st.alt_quic_connection_ids_remote ++ [⟨frame_seq, frame_cid, frame_token, false⟩] },
     none)

/-- Source `_retire_remote_connection_id`: delegate to `_update_alt_connection_id`,
turning a failure into a protocol violation citing the retirement frame. -/
def retire_remote_connection_id (rng : Nat → QUICConnectionId)
    (frame_seq_num : Nat) (st : QUICAltConnectionManager) :
    QUICAltConnectionManager × Option QUICConnectionError :=
  let p := update_alt_connection_id rng frame_seq_num st
  if p.2 then (p.1, none)
  else (p.1, some ⟨QUICTransErrorCode.PROTOCOL_VIOLATION, QUICFrameType.RETIRE_CONNECTION_ID⟩)

/-- Source `handle_frame`: dispatch on the frame type (the level argument is not
consulted, as in the source). -/
def handle_frame (rng : Nat → QUICConnectionId) (level : QUICEncryptionLevel)
    (frame : QUICFrame) (st : QUICAltConnectionManager) :
    QUICAltConnectionManager × Option QUICConnectionError :=
  match frame with
  | QUICFrame.new_connection_id seq cid token =>
    register_remote_connection_id seq cid token st
  | QUICFrame.retire_connection_id s =>
    retire_remote_connection_id rng s st

/-- Source `is_ready_to_migrate`: empty remote list is never ready; otherwise ready
iff some remote entry is unused. -/
def is_ready_to_migrate (st : QUICAltConnectionManager) : Bool :=
  if st.alt_quic_connection_ids_remote.isEmpty then false
  else st.alt_quic_connection_ids_remote.any (fun info => ! info.used)

/-- The scan inside `migrate_to_alt_cid`: find the first unused entry, mark
it used, and return its id together with the updated list; `none` when every
entry is used. -/
def pick_unused_alt_cid :
    List AltConnectionInfo → Option (List AltConnectionInfo × QUICConnectionId)
  | [] => none
  | info :: rest =>
    if info.used then
      match pick_unused_alt_cid rest with
      | some (l, c) => some (info :: l, c)
      | none => none
    else some (({ info with flag := true }) :: rest, info.id)

/-- Source `migrate_to_alt_cid`: an outbound endpoint first regenerates its whole
local pool (`_init_alt_connection_ids()` with its defaulted null endpoint,
modelled as `none`); then the first unused remote entry is marked used and
its id returned. The `none` result models the defensive
`ink_assert(!"Could not find CID available")` path, where the source
returns `QUICConnectionId::ZERO()`. -/
def migrate_to_alt_cid (rng : Nat → QUICConnectionId)
    (st : QUICAltConnectionManager) :
    QUICAltConnectionManager × Option QUICConnectionId :=
  let st1 :=
    if st.direction = NetVConnectionDir.NET_VCONNECTION_OUT then
      init_alt_connection_ids rng none st
    else st
  match pick_unused_alt_cid st1.alt_quic_connection_ids_remote with
  | some (l, c) => ({ st1 with alt_quic_connection_ids_remote := l }, some c)
  | none => (st1, none)

/-- Source `migrate_to(cid)`: look the id up in the local pool and surface its
stateless reset token. -/
def migrate_to (cid : QUICConnectionId) (st : QUICAltConnectionManager) :
    Option QUICStatelessResetToken :=
  (st.alt_quic_connection_ids_local.find? (fun info => info.id == cid)).map
    (fun info => info.token)

/-- The scan inside `drop_cid`: remove the first entry matching the id,
returning the shrunk list and the removed entry's sequence number. -/
def remove_remote_cid (cid : QUICConnectionId) :
    List AltConnectionInfo → Option (List AltConnectionInfo × Nat)
  | [] => none
  | info :: rest =>
    if info.id = cid then some (rest, info.seq_num)
    else
      match remove_remote_cid cid rest with
      | some (l, s) => some (info :: l, s)
      | none => none

/-- Source `drop_cid`: erase the matching remote entry and push its sequence number
onto the retirement queue; a miss is a no-op. -/
def drop_cid (cid : QUICConnectionId) (st : QUICAltConnectionManager) :
    QUICAltConnectionManager :=
  match remove_remote_cid cid st.alt_quic_connection_ids_remote with
  | some (l, s) =>
    { st with
        alt_quic_connection_ids_remote := l
        retired_seq_nums := st.retired_seq_nums ++ [s] }
  | none => st

/-- Source `will_generate_frame`: gate on level eligibility, then on the
pending-advertisement flag or a non-empty retirement queue. -/
def will_generate_frame (is_level_matched : QUICEncryptionLevel → Bool)
    (level : QUICEncryptionLevel) (st : QUICAltConnectionManager) : Bool :=
  if ! is_level_matched level then false
  else st.need_advertise || ! st.retired_seq_nums.isEmpty

/-- The retirement half of `generate_frame`. The source pops through
`if (auto s = this->_retired_seq_nums.front())`, a truthiness test on the
popped value: a queued sequence number 0 is neither emitted nor popped. -/
def generate_retirement_frame (st : QUICAltConnectionManager) :
    QUICAltConnectionManager × Option QUICFrame :=
  match st.retired_seq_nums with
  | [] => (st, none)
  | s :: rest =>
    if s = 0 then (st, none)
    else ({ st with retired_seq_nums := rest }, some (QUICFrame.retire_connection_id s))

/-- The advertisement loop of `generate_frame`: scan slots in order for the
first un-advertised entry; build its frame; if the frame is over budget,
cancel (list unchanged, no frame), else flag the entry advertised and emit.
`none` means every entry was already advertised. -/
def advertise_first_unadvertised (frame_size : QUICFrame → Nat)
    (maximum_frame_size : Nat) :
    List AltConnectionInfo → Option (List AltConnectionInfo × Option QUICFrame)
  | [] => none
  | e :: rest =>
    if e.advertised then
      match advertise_first_unadvertised frame_size maximum_frame_size rest with
      | some (l, f) => some (e :: l, f)
      | none => none
    else
      let f := QUICFrame.new_connection_id e.seq_num e.id e.token
      if frame_size f > maximum_frame_size then some (e :: rest, none)
      else some (({ e with flag := true }) :: rest, some f)

/-- Source `generate_frame(level, connection_credit, maximum_frame_size)`: gate on
level; while `_need_advertise`, try to advertise the first un-advertised
slot (returning directly whether or not the budget allowed it); when no slot
is pending, clear the flag and fall through to the retirement queue. -/
def generate_frame (is_level_matched : QUICEncryptionLevel → Bool)
    (frame_size : QUICFrame → Nat) (level : QUICEncryptionLevel)
    (connection_credit : Nat) (maximum_frame_size : Nat)
    (st : QUICAltConnectionManager) :
    QUICAltConnectionManager × Option QUICFrame :=
  if ! is_level_matched level then (st, none)
  else if st.need_advertise then
    match advertise_first_unadvertised frame_size maximum_frame_size
        st.alt_quic_connection_ids_local with
    | some (l, f) => ({ st with alt_quic_connection_ids_local := l }, f)
    | none => generate_retirement_frame { st with need_advertise := false }
  else generate_retirement_frame st

/-- Reachable-state invariant tying the `_need_advertise` flag to the pool:
whenever some local entry is un-advertised, the flag is set. (The converse
can fail transiently: the flag is only cleared by the poll that finds no
un-advertised entry.) -/
def advertise_flag_consistent (st : QUICAltConnectionManager) : Bool :=
  ! st.alt_quic_connection_ids_local.any (fun e => ! e.advertised) || st.need_advertise

/-- One call of the coordinator's mutating interface, for stating
whole-lifetime invariants over operation traces. -/
inductive AltOp where
  | handleOp (level : QUICEncryptionLevel) (frame : QUICFrame) : AltOp
  | genFrameOp (level : QUICEncryptionLevel)
      (connection_credit maximum_frame_size : Nat) : AltOp
  | dropOp (cid : QUICConnectionId) : AltOp
  | migrateOp : AltOp
  | initOp (preferred_endpoint : Option IpEndpoint) : AltOp

/-- The entries `_init_alt_connection_ids` generates during one call (ghost
log mirroring its generation calls, in order). -/
def init_issued (rng : Nat → QUICConnectionId) (pe : Option IpEndpoint)
    (st : QUICAltConnectionManager) : List AltConnectionInfo :=
  match pe with
  | some ep =>
    let p := generate_next_alt_con_info rng st
    let st1 := { p.1 with preferred_address := some (ep, p.2.id, p.2.token) }
    p.2 :: (generate_alt_con_infos rng st1 (st.nids - 1)).2
  | none => (generate_alt_con_infos rng st st.nids).2

/-- Apply one operation to the state. The first component is the state
produced by the corresponding source function; the second is the ghost log
of the entries generated during the call. -/
def applyOp (rng : Nat → QUICConnectionId)
    (is_level_matched : QUICEncryptionLevel → Bool)
    (frame_size : QUICFrame → Nat) (st : QUICAltConnectionManager) :
    AltOp → QUICAltConnectionManager × List AltConnectionInfo
  | AltOp.handleOp level frame =>
    ((handle_frame rng level frame st).1,
     match frame with
     | QUICFrame.new_connection_id _ _ _ => []
     | QUICFrame.retire_connection_id s =>
       match st.alt_quic_connection_ids_local.findIdx?
           (fun e => e.seq_num == s) with
       | some _ => [(generate_next_alt_con_info rng st).2]
       | none => [])
  | AltOp.genFrameOp level cc msz =>
    ((generate_frame is_level_matched frame_size level cc msz st).1, [])
  | AltOp.dropOp cid => (drop_cid cid st, [])
  | AltOp.migrateOp =>
    ((migrate_to_alt_cid rng st).1,
     if st.direction = NetVConnectionDir.NET_VCONNECTION_OUT then
       init_issued rng none st
     else [])
  | AltOp.initOp pe => (init_alt_connection_ids rng pe st, init_issued rng pe st)

/-- Sequence numbers of all entries generated along a trace of operations,
in issuance order. -/
def traceIssuedSeqs (rng : Nat → QUICConnectionId)
    (is_level_matched : QUICEncryptionLevel → Bool)
    (frame_size : QUICFrame → Nat) :
    QUICAltConnectionManager → List AltOp → List Nat
  | _, [] => []
  | st, op :: ops =>
    ((applyOp rng is_level_matched frame_size st op).2.map
      (fun e => e.seq_num)) ++
      traceIssuedSeqs rng is_level_matched frame_size
        (applyOp rng is_level_matched frame_size st op).1 ops

end QUICAltConnectionManager

namespace QUICAltConnectionManager

theorem generate_next_remote_eq (rng : Nat → QUICConnectionId)
    (st : QUICAltConnectionManager) :
    (generate_next_alt_con_info rng st).1.alt_quic_connection_ids_remote =
      st.alt_quic_connection_ids_remote := rfl

theorem generate_alt_con_infos_remote_eq (rng : Nat → QUICConnectionId) :
    ∀ (n : Nat) (st : QUICAltConnectionManager),
      (generate_alt_con_infos rng st n).1.alt_quic_connection_ids_remote =
        st.alt_quic_connection_ids_remote
  | 0, _ => rfl
  | Nat.succ n, st => by
    simp only [generate_alt_con_infos]
    rw [generate_alt_con_infos_remote_eq rng n]
    exact generate_next_remote_eq rng st

theorem init_remote_eq (rng : Nat → QUICConnectionId)
    (pe : Option IpEndpoint) (st : QUICAltConnectionManager) :
    (init_alt_connection_ids rng pe st).alt_quic_connection_ids_remote =
      st.alt_quic_connection_ids_remote := by
  cases pe with
  | none => simp only [init_alt_connection_ids, generate_alt_con_infos_remote_eq]
  | some ep =>
    simp only [init_alt_connection_ids, generate_alt_con_infos_remote_eq]
    exact generate_next_remote_eq rng st

theorem pick_unused_alt_cid_eq_none :
    ∀ l : List AltConnectionInfo, (∀ e ∈ l, e.used = true) →
      pick_unused_alt_cid l = none
  | [], _ => rfl
  | info :: rest, h => by
    have h1 : info.used = true := h info (List.mem_cons_self info rest)
    have h2 := pick_unused_alt_cid_eq_none rest
      (fun e he => h e (List.mem_cons_of_mem info he))
    simp [pick_unused_alt_cid, h1, h2]

theorem migrate_pre_state_remote_eq (rng : Nat → QUICConnectionId)
    (st : QUICAltConnectionManager) :
    (if st.direction = NetVConnectionDir.NET_VCONNECTION_OUT then
        init_alt_connection_ids rng none st
      else st).alt_quic_connection_ids_remote =
      st.alt_quic_connection_ids_remote := by
  by_cases h : st.direction = NetVConnectionDir.NET_VCONNECTION_OUT
  · rw [if_pos h]; exact init_remote_eq rng none st
  · rw [if_neg h]

theorem migrate_to_alt_cid_none_of_all_used (rng : Nat → QUICConnectionId)
    (st : QUICAltConnectionManager)
    (h : ∀ e ∈ st.alt_quic_connection_ids_remote, e.used = true) :
    (migrate_to_alt_cid rng st).2 = none := by
  rw [migrate_to_alt_cid]
  rw [migrate_pre_state_remote_eq rng st]
  rw [pick_unused_alt_cid_eq_none st.alt_quic_connection_ids_remote h]

theorem pick_unused_alt_cid_at :
    ∀ (l : List AltConnectionInfo) (j : Nat) (e : AltConnectionInfo),
      l[j]? = some e → e.used = false →
      (∀ k e', k < j → l[k]? = some e' → e'.used = true) →
      pick_unused_alt_cid l = some (l.set j ({ e with flag := true }), e.id)
  | [], j, e, h, _, _ => by simp at h
  | info :: rest, 0, e, h, hu, _ => by
    have he : info = e := by simpa using h
    subst he
    simp [pick_unused_alt_cid, hu]
  | info :: rest, Nat.succ j, e, h, hu, hbefore => by
    have hinfo : info.used = true :=
      hbefore 0 info (Nat.succ_pos j) (by simp)
    have ih := pick_unused_alt_cid_at rest j e (by simpa using h) hu
      (fun k e' hk hke =>
        hbefore (k + 1) e' (Nat.succ_lt_succ hk) (by simpa using hke))
    simp [pick_unused_alt_cid, hinfo, ih, List.set]

theorem pick_unused_alt_cid_sound :
    ∀ (l l' : List AltConnectionInfo) (c : QUICConnectionId),
      pick_unused_alt_cid l = some (l', c) →
      ∃ j e, l[j]? = some e ∧ e.used = false ∧ c = e.id ∧
        l' = l.set j ({ e with flag := true })
  | [], _, _, h => by simp [pick_unused_alt_cid] at h
  | info :: rest, l', c, h => by
    by_cases hinfo : info.used = true
    · rw [pick_unused_alt_cid, if_pos hinfo] at h
      cases hp : pick_unused_alt_cid rest with
      | none => rw [hp] at h; exact absurd h (by simp)
      | some p =>
        obtain ⟨l2, c2⟩ := p
        rw [hp] at h
        have h1 : info :: l2 = l' := by
          injection h with h; exact congrArg Prod.fst h
        have h2 : c2 = c := by injection h with h; exact congrArg Prod.snd h
        obtain ⟨j, e, ha, hb, hc, hd⟩ := pick_unused_alt_cid_sound rest l2 c2 hp
        refine ⟨j + 1, e, by simpa using ha, hb, h2 ▸ hc, ?_⟩
        rw [← h1, hd]
        simp [List.set]
    · have hf : info.used = false := by
        cases hv : info.used with
        | false => rfl
        | true => exact absurd hv hinfo
      rw [pick_unused_alt_cid, if_neg (by rw [hf]; exact Bool.false_ne_true)] at h
      have h1 : ({ info with flag := true }) :: rest = l' := by
        injection h with h; exact congrArg Prod.fst h
      have h2 : info.id = c := by
        injection h with h; exact congrArg Prod.snd h
      exact ⟨0, info, by simp, hf, h2.symm, by rw [← h1]; simp [List.set]⟩

end QUICAltConnectionManager

open QUICAltConnectionManager

/-- Claim C9: `is_ready_to_migrate` returns true iff at least one remote
entry has `used = false`; in particular it returns false on an empty remote
list. -/
theorem C9_is_ready_to_migrate_iff (st : QUICAltConnectionManager) :
    (is_ready_to_migrate st = true ↔
      ∃ e ∈ st.alt_quic_connection_ids_remote, e.used = false) ∧
    (st.alt_quic_connection_ids_remote = [] → is_ready_to_migrate st = false) := by
  constructor
  · cases h : st.alt_quic_connection_ids_remote with
    | nil => simp [is_ready_to_migrate, h]
    | cons a l =>
      simp [is_ready_to_migrate, h, List.any_eq_true, Bool.not_eq_true']
  · intro h
    simp [is_ready_to_migrate, h]

/-- Witness for C9 at a concrete two-entry remote list. -/
theorem C9_is_ready_to_migrate_iff_witness :
    is_ready_to_migrate
      { instance_id := 0, nids := 0, direction := NetVConnectionDir.NET_VCONNECTION_IN
        alt_quic_connection_ids_remote :=
          [⟨0, [1], QUICStatelessResetToken.empty, true⟩,
           ⟨2, [2], QUICStatelessResetToken.raw 5, false⟩]
        alt_quic_connection_ids_local := []
        alt_quic_connection_id_seq_num := 0, need_advertise := false
        retired_seq_nums := [], preferred_address := none, ctable := [], rng_idx := 0 } = true := by
  refine (C9_is_ready_to_migrate_iff _).1.mpr ?_
  exact ⟨⟨2, [2], QUICStatelessResetToken.raw 5, false⟩, by decide, rfl⟩

/-- Claim C4: an inbound NEW_CONNECTION_ID frame with a zero-length id is
rejected with a protocol violation citing NEW_CONNECTION_ID and leaves the
state untouched; any other id appends exactly one `used = false` entry with
the frame's fields at the end of the remote list, with no error. -/
theorem C4_handle_new_connection_id_spec (rng : Nat → QUICConnectionId)
    (level : QUICEncryptionLevel) (seq : Nat) (cid : QUICConnectionId)
    (token : QUICStatelessResetToken) (st : QUICAltConnectionManager) :
    (cid = QUICConnectionId.ZERO →
      handle_frame rng level (QUICFrame.new_connection_id seq cid token) st =
        (st, some ⟨QUICTransErrorCode.PROTOCOL_VIOLATION, QUICFrameType.NEW_CONNECTION_ID⟩)) ∧
    (cid ≠ QUICConnectionId.ZERO →
      handle_frame rng level (QUICFrame.new_connection_id seq cid token) st =
        ({ st with
            alt_quic_connection_ids_remote :=
              st.alt_quic_connection_ids_remote ++ [⟨seq, cid, token, false⟩] }, none)) := by
  constructor
  · intro h
    simp [handle_frame, register_remote_connection_id, h]
  · intro h
    simp [handle_frame, register_remote_connection_id, h]

/-- Witness for C4: a zero-length id is rejected and a one-byte id is
appended. -/
theorem C4_handle_new_connection_id_spec_witness :
    (handle_frame (fun _ => [0]) 0
        (QUICFrame.new_connection_id 3 [] (QUICStatelessResetToken.raw 1))
        (mkWithPreferredAddress NetVConnectionDir.NET_VCONNECTION_IN [9] 0 2 none) =
      (mkWithPreferredAddress NetVConnectionDir.NET_VCONNECTION_IN [9] 0 2 none,
       some ⟨QUICTransErrorCode.PROTOCOL_VIOLATION, QUICFrameType.NEW_CONNECTION_ID⟩)) ∧
    (handle_frame (fun _ => [0]) 0
        (QUICFrame.new_connection_id 3 [7] (QUICStatelessResetToken.raw 1))
        (mkWithPreferredAddress NetVConnectionDir.NET_VCONNECTION_IN [9] 0 2 none)).2 = none := by
  constructor
  · exact (C4_handle_new_connection_id_spec (fun _ => [0]) 0 3 []
      (QUICStatelessResetToken.raw 1) _).1 rfl
  · rw [(C4_handle_new_connection_id_spec (fun _ => [0]) 0 3 [7]
      (QUICStatelessResetToken.raw 1) _).2 (by decide)]

/-- Claim C10: the remote entry seeded at construction with sequence 0
carries `used = true`; immediately after construction with only a peer
initial cid (no preferred address) the manager is not ready to migrate, and
`migrate_to_alt_cid` falls through to its defensive failure path instead of
returning the initial connection id. -/
theorem C10_initial_cid_never_migration_target (dir : NetVConnectionDir)
    (peer : QUICConnectionId) (iid n : Nat) (rng : Nat → QUICConnectionId) :
    (mkWithPreferredAddress dir peer iid n none).alt_quic_connection_ids_remote =
      [⟨0, peer, QUICStatelessResetToken.empty, true⟩] ∧
    is_ready_to_migrate (mkWithPreferredAddress dir peer iid n none) = false ∧
    (migrate_to_alt_cid rng (mkWithPreferredAddress dir peer iid n none)).2 = none := by
  refine ⟨rfl, rfl, ?_⟩
  refine migrate_to_alt_cid_none_of_all_used rng _ ?_
  intro e he
  have : e = ⟨0, peer, QUICStatelessResetToken.empty, true⟩ := by
    simpa [mkWithPreferredAddress] using he
  rw [this]
  rfl

/-- Claim C1 (failing input): drop the initial remote entry, whose sequence
number is 0. The queue then holds `[0]`, but `generate_frame` never emits a
retirement frame for it and never pops it, because the source guards the pop
with a truthiness test on the popped value (`if (auto s = front())`), which
is false for 0. -/
theorem C1_retirement_of_seq_zero_never_emitted :
    (drop_cid [170]
        (mkWithPreferredAddress NetVConnectionDir.NET_VCONNECTION_IN [170] 7 2
          none)).retired_seq_nums = [0] ∧
    ∀ cc msz : Nat,
      generate_frame (fun _ => true) (fun _ => 1) 0 cc msz
          (drop_cid [170]
            (mkWithPreferredAddress NetVConnectionDir.NET_VCONNECTION_IN [170] 7 2
              none)) =
        (drop_cid [170]
          (mkWithPreferredAddress NetVConnectionDir.NET_VCONNECTION_IN [170] 7 2
            none), none) := by
  refine ⟨rfl, ?_⟩
  intro cc msz
  rfl

/-- Claim C2 (counterexample): immediately after endpoint-descriptor
construction with one slot, every local entry is advertised (the single slot
went out via transport parameters) and the retirement queue is empty, yet
`will_generate_frame` returns true at an eligible level because the
`_need_advertise` flag is still set. This contradicts the claim that the
function returns false once every local entry is advertised and the queue is
empty, regardless of internal flags. -/
theorem C2_will_generate_frame_counterexample :
    (∀ e ∈ (mkWithPreferredEndpoint (fun k => [k + 1])
        NetVConnectionDir.NET_VCONNECTION_IN [170] 7 1
        (some 0)).alt_quic_connection_ids_local, e.advertised = true) ∧
    (mkWithPreferredEndpoint (fun k => [k + 1])
        NetVConnectionDir.NET_VCONNECTION_IN [170] 7 1
        (some 0)).retired_seq_nums = [] ∧
    will_generate_frame (fun _ => true) 0
      (mkWithPreferredEndpoint (fun k => [k + 1])
        NetVConnectionDir.NET_VCONNECTION_IN [170] 7 1 (some 0)) = true := by
  refine ⟨?_, rfl, rfl⟩
  decide

/-- Claim C2 (amended): at an ineligible level the gate returns false; at an
eligible level it returns true whenever some local entry is un-advertised or
the retirement queue is non-empty (given the flag/pool consistency invariant
of reachable states), and it returns false only when every local entry is
advertised and the queue is empty — though not conversely: a stale
`_need_advertise` flag can keep it true for one extra poll. -/
theorem C2_will_generate_frame_amended (matched : QUICEncryptionLevel → Bool)
    (level : QUICEncryptionLevel) (st : QUICAltConnectionManager)
    (hinv : advertise_flag_consistent st = true) :
    (matched level = false → will_generate_frame matched level st = false) ∧
    (matched level = true →
      (((∃ e ∈ st.alt_quic_connection_ids_local, e.advertised = false) ∨
          st.retired_seq_nums ≠ []) →
        will_generate_frame matched level st = true) ∧
      (will_generate_frame matched level st = false →
        (∀ e ∈ st.alt_quic_connection_ids_local, e.advertised = true) ∧
          st.retired_seq_nums = [])) := by
  constructor
  · intro h
    simp [will_generate_frame, h]
  · intro h
    have hfl : st.alt_quic_connection_ids_local.any (fun e => ! e.advertised) = true →
        st.need_advertise = true := by
      intro ha
      rcases Bool.or_eq_true_iff.mp hinv with h1 | h2
      · rw [ha] at h1; exact absurd h1 (by simp)
      · exact h2
    constructor
    · rintro (⟨e, he, hadv⟩ | hq)
      · have : st.need_advertise = true := by
          refine hfl ?_
          exact List.any_eq_true.mpr ⟨e, he, by simp [hadv]⟩
        simp [will_generate_frame, h, this]

      · have : st.retired_seq_nums.isEmpty = false := by
          cases hr : st.retired_seq_nums with
          | nil => exact absurd hr hq
          | cons a l => rfl
        simp [will_generate_frame, h, this]
    · intro hw
      simp only [will_generate_frame, h, Bool.not_true, Bool.false_eq_true,
        if_false, Bool.or_eq_false_iff] at hw
      rcases hw with ⟨hna, hre⟩
      constructor
      · intro e he
        by_contra hadv
        have : st.alt_quic_connection_ids_local.any (fun e => ! e.advertised) = true :=
          List.any_eq_true.mpr ⟨e, he, by simp [Bool.not_eq_true] at hadv; simp [hadv]⟩
        rw [hfl this] at hna
        exact absurd hna (by simp)
      · cases hr : st.retired_seq_nums with
        | nil => rfl
        | cons a l => rw [hr] at hre; exact absurd hre (by simp [List.isEmpty])

/-- Claim C5: handling a retirement frame regenerates the first local slot
whose sequence number matches (fresh entry with the next sequence number,
un-advertised, pending-advertisement raised) and succeeds; an unmatched
sequence number 0 succeeds without touching the state; any other unmatched
number yields a protocol violation citing RETIRE_CONNECTION_ID, with the
state untouched. -/
theorem C5_handle_retire_connection_id_spec (rng : Nat → QUICConnectionId)
    (level : QUICEncryptionLevel) (s : Nat) (st : QUICAltConnectionManager) :
    (∀ i, st.alt_quic_connection_ids_local.findIdx?
        (fun e => e.seq_num == s) = some i →
      (handle_frame rng level (QUICFrame.retire_connection_id s) st).2 = none ∧
      (handle_frame rng level (QUICFrame.retire_connection_id s)
          st).1.alt_quic_connection_ids_local =
        st.alt_quic_connection_ids_local.set i (generate_next_alt_con_info rng st).2 ∧
      (handle_frame rng level (QUICFrame.retire_connection_id s)
          st).1.need_advertise = true ∧
      (generate_next_alt_con_info rng st).2.seq_num =
        st.alt_quic_connection_id_seq_num + 1 ∧
      (generate_next_alt_con_info rng st).2.advertised = false) ∧
    (st.alt_quic_connection_ids_local.findIdx? (fun e => e.seq_num == s) = none →
      s = 0 →
      handle_frame rng level (QUICFrame.retire_connection_id s) st = (st, none)) ∧
    (st.alt_quic_connection_ids_local.findIdx? (fun e => e.seq_num == s) = none →
      s ≠ 0 →
      handle_frame rng level (QUICFrame.retire_connection_id s) st =
        (st, some ⟨QUICTransErrorCode.PROTOCOL_VIOLATION,
                   QUICFrameType.RETIRE_CONNECTION_ID⟩)) := by
  refine ⟨?_, ?_, ?_⟩
  · intro i h
    simp only [handle_frame, retire_remote_connection_id, update_alt_connection_id, h]
    exact ⟨rfl, rfl, rfl, rfl, rfl⟩
  · intro h hs
    subst hs
    simp [handle_frame, retire_remote_connection_id, update_alt_connection_id, h]
  · intro h hs
    simp [handle_frame, retire_remote_connection_id, update_alt_connection_id, h, hs]

/-- Witness for C5 on a two-slot pool (local sequence numbers 1 and 2):
retiring 2 succeeds, retiring 5 is a protocol violation, retiring 0 is a
no-op success. -/
theorem C5_handle_retire_connection_id_spec_witness :
    (handle_frame (fun k => [k + 1]) 0 (QUICFrame.retire_connection_id 2)
        (mkWithPreferredEndpoint (fun k => [k + 1])
          NetVConnectionDir.NET_VCONNECTION_IN [9] 3 2 none)).2 = none ∧
    (handle_frame (fun k => [k + 1]) 0 (QUICFrame.retire_connection_id 0)
        (mkWithPreferredEndpoint (fun k => [k + 1])
          NetVConnectionDir.NET_VCONNECTION_IN [9] 3 2 none)).2 = none ∧
    (handle_frame (fun k => [k + 1]) 0 (QUICFrame.retire_connection_id 5)
        (mkWithPreferredEndpoint (fun k => [k + 1])
          NetVConnectionDir.NET_VCONNECTION_IN [9] 3 2 none)).2 =
      some ⟨QUICTransErrorCode.PROTOCOL_VIOLATION,
            QUICFrameType.RETIRE_CONNECTION_ID⟩ := by
  refine ⟨?_, ?_, ?_⟩
  · exact ((C5_handle_retire_connection_id_spec (fun k => [k + 1]) 0 2 _).1 1
      (by decide)).1
  · rw [(C5_handle_retire_connection_id_spec (fun k => [k + 1]) 0 0 _).2.1
      (by decide) rfl]
  · rw [(C5_handle_retire_connection_id_spec (fun k => [k + 1]) 0 5 _).2.2
      (by decide) (by decide)]

/-- Witness for the amended C2 at a freshly constructed manager with an empty
local pool and empty queue: the gate reports no pending work. -/
theorem C2_will_generate_frame_amended_witness :
    (∀ e ∈ (mkWithPreferredAddress NetVConnectionDir.NET_VCONNECTION_IN [9] 0 2
        none).alt_quic_connection_ids_local, e.advertised = true) ∧
    (mkWithPreferredAddress NetVConnectionDir.NET_VCONNECTION_IN [9] 0 2
        none).retired_seq_nums = [] := by
  exact ((C2_will_generate_frame_amended (fun _ => true) 0
    (mkWithPreferredAddress NetVConnectionDir.NET_VCONNECTION_IN [9] 0 2 none)
    (by decide)).2 rfl).2 rfl

/-- Claim C6: whenever some remote entry is unused, `migrate_to_alt_cid`
returns the id of the first unused entry in insertion order and flips
exactly that entry's `used` flag (the `List.set` form leaves every other
entry unchanged); more generally, any id it returns belongs to an entry that
was unused beforehand. -/
theorem C6_migrate_to_alt_cid_spec (rng : Nat → QUICConnectionId)
    (st : QUICAltConnectionManager) :
    (∀ st' c, migrate_to_alt_cid rng st = (st', some c) →
      ∃ j e, st.alt_quic_connection_ids_remote[j]? = some e ∧ e.used = false ∧
        c = e.id ∧
        st'.alt_quic_connection_ids_remote =
          st.alt_quic_connection_ids_remote.set j ({ e with flag := true })) ∧
    (∀ j e, st.alt_quic_connection_ids_remote[j]? = some e → e.used = false →
      (∀ k e', k < j → st.alt_quic_connection_ids_remote[k]? = some e' →
        e'.used = true) →
      (migrate_to_alt_cid rng st).2 = some e.id ∧
      (migrate_to_alt_cid rng st).1.alt_quic_connection_ids_remote =
        st.alt_quic_connection_ids_remote.set j ({ e with flag := true })) := by
  constructor
  · intro st' c h
    rw [migrate_to_alt_cid, migrate_pre_state_remote_eq rng st] at h
    cases hp : pick_unused_alt_cid st.alt_quic_connection_ids_remote with
    | none =>
      rw [hp] at h
      exact absurd (congrArg Prod.snd h) (by simp)
    | some p =>
      obtain ⟨l, c0⟩ := p
      rw [hp] at h
      obtain ⟨j, e, ha, hb, hc, hd⟩ := pick_unused_alt_cid_sound
        st.alt_quic_connection_ids_remote l c0 hp
      have hsnd : some c0 = some c := congrArg Prod.snd h
      have hc' : c0 = c := Option.some.inj hsnd
      have hfst : l = st'.alt_quic_connection_ids_remote :=
        congrArg (fun q => q.1.alt_quic_connection_ids_remote) h
      refine ⟨j, e, ha, hb, hc' ▸ hc, ?_⟩
      rw [← hfst]
      exact hd
  · intro j e h1 h2 h3
    have hp := pick_unused_alt_cid_at st.alt_quic_connection_ids_remote j e h1 h2 h3
    rw [migrate_to_alt_cid, migrate_pre_state_remote_eq rng st, hp]
    exact ⟨rfl, rfl⟩

/-- Witness for C6: after construction with a preferred-address remote entry
at sequence 1, migration picks exactly that entry's id. -/
theorem C6_migrate_to_alt_cid_spec_witness :
    (migrate_to_alt_cid (fun k => [k + 1])
        (mkWithPreferredAddress NetVConnectionDir.NET_VCONNECTION_IN [9] 0 2
          (some ([5], QUICStatelessResetToken.raw 1)))).2 = some [5] := by
  refine ((C6_migrate_to_alt_cid_spec (fun k => [k + 1]) _).2 1
    ⟨1, [5], QUICStatelessResetToken.raw 1, false⟩ (by decide) rfl ?_).1
  intro k e' hk hke
  have hk0 : k = 0 := Nat.lt_one_iff.mp hk
  subst hk0
  have he' : e' = ⟨0, [9], QUICStatelessResetToken.empty, true⟩ := by
    simpa [mkWithPreferredAddress] using hke.symm
  rw [he']
  rfl

namespace QUICAltConnectionManager

theorem advertise_none_all_advertised (f : QUICFrame → Nat) (msz : Nat) :
    ∀ l : List AltConnectionInfo,
      advertise_first_unadvertised f msz l = none →
      ∀ e ∈ l, e.advertised = true
  | [], _, e, he => absurd he (List.not_mem_nil e)
  | info :: rest, h, e, he => by
    cases hv : info.advertised with
    | false =>
      rw [advertise_first_unadvertised,
        if_neg (by rw [hv]; exact Bool.false_ne_true)] at h
      by_cases hb : msz < f (QUICFrame.new_connection_id info.seq_num info.id info.token)
      · rw [if_pos hb] at h; exact absurd h (by simp)
      · rw [if_neg hb] at h; exact absurd h (by simp)
    | true =>
      have hr : advertise_first_unadvertised f msz rest = none := by
        cases hr2 : advertise_first_unadvertised f msz rest with
        | none => rfl
        | some p =>
          obtain ⟨l2, f2⟩ := p
          rw [advertise_first_unadvertised, if_pos hv, hr2] at h
          exact absurd h (by simp)
      rcases List.mem_cons.mp he with hh | hmem
      · rw [hh]; exact hv
      · exact advertise_none_all_advertised f msz rest hr e hmem

theorem advertise_some_of_any_unadvertised (f : QUICFrame → Nat) (msz : Nat)
    (l : List AltConnectionInfo)
    (hex : ∃ e ∈ l, e.advertised = false) :
    ∃ p, advertise_first_unadvertised f msz l = some p := by
  cases hr : advertise_first_unadvertised f msz l with
  | some p => exact ⟨p, rfl⟩
  | none =>
    obtain ⟨e, he, hadv⟩ := hex
    have := advertise_none_all_advertised f msz l hr e he
    rw [this] at hadv
    exact absurd hadv (by simp)

theorem advertise_pointwise (f : QUICFrame → Nat) (msz : Nat) :
    ∀ (l l' : List AltConnectionInfo) (fr : Option QUICFrame),
      advertise_first_unadvertised f msz l = some (l', fr) →
      ∀ (j : Nat) (e e' : AltConnectionInfo), l[j]? = some e → l'[j]? = some e' →
        (e.advertised = true → e' = e) ∧
        (e.advertised = false → e'.advertised = true →
          fr = some (QUICFrame.new_connection_id e.seq_num e.id e.token) ∧
          f (QUICFrame.new_connection_id e.seq_num e.id e.token) ≤ msz)
  | [], _, _, h => by simp [advertise_first_unadvertised] at h
  | info :: rest, l', fr, h => by
    cases hv : info.advertised with
    | true =>
      rw [advertise_first_unadvertised, if_pos hv] at h
      cases hr : advertise_first_unadvertised f msz rest with
      | none => rw [hr] at h; exact absurd h (by simp)
      | some p =>
        obtain ⟨l2, f2⟩ := p
        rw [hr] at h
        have hl : info :: l2 = l' := by injection h with h; exact congrArg Prod.fst h
        have hf : f2 = fr := by injection h with h; exact congrArg Prod.snd h
        intro j e e' hj hj'
        cases j with
        | zero =>
          have h1 : info = e := by simpa using hj
          have h2 : info = e' := by rw [← hl] at hj'; simpa using hj'
          refine ⟨fun _ => h2.symm.trans h1, fun hfalse _ => ?_⟩
          rw [← h1, hv] at hfalse
          exact absurd hfalse (by simp)
        | succ k =>
          have hrec := advertise_pointwise f msz rest l2 f2 hr k e e'
            (by simpa using hj) (by rw [← hl] at hj'; simpa using hj')
          exact ⟨hrec.1, fun a b => hf ▸ (hrec.2 a b)⟩
    | false =>
      rw [advertise_first_unadvertised,
        if_neg (by rw [hv]; exact Bool.false_ne_true)] at h
      by_cases hb : f (QUICFrame.new_connection_id info.seq_num info.id info.token) > msz
      · rw [if_pos hb] at h
        have hl : info :: rest = l' := by injection h with h; exact congrArg Prod.fst h
        have hf : (none : Option QUICFrame) = fr := by
          injection h with h; exact congrArg Prod.snd h
        intro j e e' hj hj'
        rw [← hl] at hj'
        rw [hj] at hj'
        have hee : e = e' := Option.some.inj hj'
        refine ⟨fun _ => hee.symm, fun hfalse htrue => ?_⟩
        rw [← hee, hfalse] at htrue
        exact absurd htrue (by simp)
      · rw [if_neg hb] at h
        have hl : ({ info with flag := true }) :: rest = l' := by
          injection h with h; exact congrArg Prod.fst h
        have hf : some (QUICFrame.new_connection_id info.seq_num info.id info.token) = fr := by
          injection h with h; exact congrArg Prod.snd h
        intro j e e' hj hj'
        cases j with
        | zero =>
          have h1 : info = e := by simpa using hj
          refine ⟨fun htrue => ?_, fun _ _ => ?_⟩
          · rw [← h1, hv] at htrue
            exact absurd htrue (by simp)
          · constructor
            · rw [← hf, ← h1]
            · rw [← h1]
              exact Nat.not_lt.mp hb
        | succ k =>
          have h1 : rest[k]? = some e := by simpa using hj
          have h2 : rest[k]? = some e' := by rw [← hl] at hj'; simpa using hj'
          rw [h1] at h2
          have hee : e = e' := Option.some.inj h2
          refine ⟨fun _ => hee.symm, fun hfalse htrue => ?_⟩
          rw [← hee, hfalse] at htrue
          exact absurd htrue (by simp)

theorem advertise_frame_is_first (f : QUICFrame → Nat) (msz : Nat) :
    ∀ (l l' : List AltConnectionInfo) (fr0 : QUICFrame),
      advertise_first_unadvertised f msz l = some (l', some fr0) →
      ∃ e, l.find? (fun x => ! x.advertised) = some e ∧
        fr0 = QUICFrame.new_connection_id e.seq_num e.id e.token
  | [], _, _, h => by simp [advertise_first_unadvertised] at h
  | info :: rest, l', fr0, h => by
    cases hv : info.advertised with
    | true =>
      rw [advertise_first_unadvertised, if_pos hv] at h
      cases hr : advertise_first_unadvertised f msz rest with
      | none => rw [hr] at h; exact absurd h (by simp)
      | some p =>
        obtain ⟨l2, f2⟩ := p
        rw [hr] at h
        have hf : f2 = some fr0 := by injection h with h; exact congrArg Prod.snd h
        obtain ⟨e, he, hfr⟩ := advertise_frame_is_first f msz rest l2 fr0 (hf ▸ hr)
        refine ⟨e, ?_, hfr⟩
        rw [List.find?_cons_of_neg _ (by simp [AltConnectionInfo.advertised] at hv ⊢; exact hv)]
        exact he
    | false =>
      rw [advertise_first_unadvertised,
        if_neg (by rw [hv]; exact Bool.false_ne_true)] at h
      by_cases hb : f (QUICFrame.new_connection_id info.seq_num info.id info.token) > msz
      · rw [if_pos hb] at h
        have hf : (none : Option QUICFrame) = some fr0 := by
          injection h with h; exact congrArg Prod.snd h
        exact absurd hf (by simp)
      · rw [if_neg hb] at h
        have hf : some (QUICFrame.new_connection_id info.seq_num info.id info.token) =
            some fr0 := by
          injection h with h; exact congrArg Prod.snd h
        refine ⟨info, ?_, (Option.some.inj hf).symm⟩
        exact List.find?_cons_of_pos _ (by simp [AltConnectionInfo.advertised] at hv ⊢; exact hv)

theorem advertise_first_unadvertised_at (f : QUICFrame → Nat) (msz : Nat) :
    ∀ (l : List AltConnectionInfo) (j : Nat) (e : AltConnectionInfo),
      l[j]? = some e → e.advertised = false →
      (∀ k e', k < j → l[k]? = some e' → e'.advertised = true) →
      advertise_first_unadvertised f msz l =
        some (if f (QUICFrame.new_connection_id e.seq_num e.id e.token) > msz
              then (l, none)
              else (l.set j ({ e with flag := true }),
                    some (QUICFrame.new_connection_id e.seq_num e.id e.token)))
  | [], j, e, h, _, _ => by simp at h
  | info :: rest, 0, e, h, hu, _ => by
    have he : info = e := by simpa using h
    subst he
    by_cases hb : f (QUICFrame.new_connection_id info.seq_num info.id info.token) > msz
    · rw [advertise_first_unadvertised,
        if_neg (by rw [hu]; exact Bool.false_ne_true), if_pos hb, if_pos hb]
    · rw [advertise_first_unadvertised,
        if_neg (by rw [hu]; exact Bool.false_ne_true), if_neg hb, if_neg hb]
      rfl
  | info :: rest, Nat.succ j, e, h, hu, hbefore => by
    have hinfo : info.advertised = true :=
      hbefore 0 info (Nat.succ_pos j) (by simp)
    have ih := advertise_first_unadvertised_at f msz rest j e (by simpa using h) hu
      (fun k e' hk hke =>
        hbefore (k + 1) e' (Nat.succ_lt_succ hk) (by simpa using hke))
    rw [advertise_first_unadvertised, if_pos hinfo, ih]
    by_cases hb : f (QUICFrame.new_connection_id e.seq_num e.id e.token) > msz
    · rw [if_pos hb, if_pos hb]
    · rw [if_neg hb, if_neg hb]
      simp [List.set]

theorem generate_retirement_frame_local_eq (st : QUICAltConnectionManager) :
    (generate_retirement_frame st).1.alt_quic_connection_ids_local =
      st.alt_quic_connection_ids_local := by
  cases h : st.retired_seq_nums with
  | nil => rw [generate_retirement_frame, h]
  | cons s rest =>
    rw [generate_retirement_frame, h]
    by_cases hs : s = 0
    · simp [hs]
    · simp [hs]

end QUICAltConnectionManager

/-- Claim C3: inside `generate_frame` a local entry's `advertised` flag never
reverts (an already-advertised entry comes out unchanged), and it flips
false→true only on the call that returns that entry's advertisement frame
with encoded size within `maximum_frame_size`; when the first un-advertised
entry's frame exceeds the budget, the call returns no frame and leaves the
state exactly as it was, so the same entry is selected again on the next
poll. -/
theorem C3_advertised_flag_spec (m : QUICEncryptionLevel → Bool)
    (f : QUICFrame → Nat) (level : QUICEncryptionLevel) (cc msz : Nat)
    (st : QUICAltConnectionManager) :
    (∀ (j : Nat) (e e' : AltConnectionInfo),
      st.alt_quic_connection_ids_local[j]? = some e →
      (generate_frame m f level cc msz st).1.alt_quic_connection_ids_local[j]? =
        some e' →
      (e.advertised = true → e' = e) ∧
      (e.advertised = false → e'.advertised = true →
        (generate_frame m f level cc msz st).2 =
          some (QUICFrame.new_connection_id e.seq_num e.id e.token) ∧
        f (QUICFrame.new_connection_id e.seq_num e.id e.token) ≤ msz)) ∧
    (m level = true → st.need_advertise = true →
      ∀ (j : Nat) (e : AltConnectionInfo),
        st.alt_quic_connection_ids_local[j]? = some e → e.advertised = false →
        (∀ k e', k < j → st.alt_quic_connection_ids_local[k]? = some e' →
          e'.advertised = true) →
        f (QUICFrame.new_connection_id e.seq_num e.id e.token) > msz →
        generate_frame m f level cc msz st = (st, none)) := by
  constructor
  · intro j e e' hj hj'
    by_cases hm : m level = true
    · by_cases hn : st.need_advertise = true
      · cases ha : advertise_first_unadvertised f msz
            st.alt_quic_connection_ids_local with
        | some p =>
          obtain ⟨l, fr⟩ := p
          have hres : generate_frame m f level cc msz st =
              ({ st with alt_quic_connection_ids_local := l }, fr) := by
            rw [generate_frame, if_neg (by rw [hm]; simp), if_pos hn, ha]
          rw [hres] at hj'
          have hpw := advertise_pointwise f msz
            st.alt_quic_connection_ids_local l fr ha j e e' hj hj'
          refine ⟨hpw.1, fun a b => ?_⟩
          have h2 := hpw.2 a b
          rw [hres]
          exact h2
        | none =>
          have hall := advertise_none_all_advertised f msz _ ha
          have hres : generate_frame m f level cc msz st =
              generate_retirement_frame { st with need_advertise := false } := by
            rw [generate_frame, if_neg (by rw [hm]; simp), if_pos hn, ha]
          have hloc : (generate_frame m f level cc msz
              st).1.alt_quic_connection_ids_local =
              st.alt_quic_connection_ids_local := by
            rw [hres]
            exact generate_retirement_frame_local_eq _
          rw [hloc, hj] at hj'
          have hee : e = e' := Option.some.inj hj'
          refine ⟨fun _ => hee.symm, fun hfalse _ => ?_⟩
          have := hall e (List.getElem?_mem hj)
          rw [hfalse] at this
          exact absurd this (by simp)
      · have hres : generate_frame m f level cc msz st =
            generate_retirement_frame st := by
          rw [generate_frame, if_neg (by rw [hm]; simp), if_neg hn]
        have hloc : (generate_frame m f level cc msz
            st).1.alt_quic_connection_ids_local =
            st.alt_quic_connection_ids_local := by
          rw [hres]
          exact generate_retirement_frame_local_eq st
        rw [hloc, hj] at hj'
        have hee : e = e' := Option.some.inj hj'
        refine ⟨fun _ => hee.symm, fun hfalse htrue => ?_⟩
        rw [← hee, hfalse] at htrue
        exact absurd htrue (by simp)
    · have hmf : m level = false := by
        cases hq : m level with
        | true => exact absurd hq hm
        | false => rfl
      have hres : generate_frame m f level cc msz st = (st, none) := by
        rw [generate_frame, if_pos (by rw [hmf]; rfl)]
      rw [hres] at hj'
      rw [hj] at hj'
      have hee : e = e' := Option.some.inj hj'
      refine ⟨fun _ => hee.symm, fun hfalse htrue => ?_⟩
      rw [← hee, hfalse] at htrue
      exact absurd htrue (by simp)
  · intro hml hn j e hj hadv hbef hover
    have hat := advertise_first_unadvertised_at f msz
      st.alt_quic_connection_ids_local j e hj hadv hbef
    rw [if_pos hover] at hat
    rw [generate_frame, if_neg (by rw [hml]; simp), if_pos hn, hat]

/-- Witness for C3: with two un-advertised slots and a zero budget (frame
size 5 > 0), the poll returns no frame and changes nothing. -/
theorem C3_advertised_flag_spec_witness :
    generate_frame (fun _ => true) (fun _ => 5) 0 0 0
        (mkWithPreferredEndpoint (fun k => [k + 1])
          NetVConnectionDir.NET_VCONNECTION_IN [9] 3 2 none) =
      (mkWithPreferredEndpoint (fun k => [k + 1])
        NetVConnectionDir.NET_VCONNECTION_IN [9] 3 2 none, none) := by
  exact (C3_advertised_flag_spec (fun _ => true) (fun _ => 5) 0 0 0 _).2 rfl
    (by decide) 0 ⟨1, [1], QUICStatelessResetToken.derived [1] 3, false⟩
    (by decide) rfl (fun k e' hk _ => absurd hk (Nat.not_lt_zero k)) (by decide)

/-- Claim C7: `generate_frame` yields at most one frame per call (its result
carries a single optional frame); while some local entry is un-advertised
(with the reachable-state flag invariant), the retirement queue is never
touched — no retirement frame is emitted or popped even if the queue is
non-empty — and any frame produced is the advertisement of the first
un-advertised entry in pool slot order. -/
theorem C7_advertisement_priority (m : QUICEncryptionLevel → Bool)
    (f : QUICFrame → Nat) (level : QUICEncryptionLevel) (cc msz : Nat)
    (st : QUICAltConnectionManager)
    (hinv : advertise_flag_consistent st = true)
    (hex : ∃ e ∈ st.alt_quic_connection_ids_local, e.advertised = false) :
    (generate_frame m f level cc msz st).1.retired_seq_nums =
      st.retired_seq_nums ∧
    ∀ fr, (generate_frame m f level cc msz st).2 = some fr →
      ∃ e, st.alt_quic_connection_ids_local.find?
          (fun x => ! x.advertised) = some e ∧
        fr = QUICFrame.new_connection_id e.seq_num e.id e.token := by
  have hn : st.need_advertise = true := by
    rcases Bool.or_eq_true_iff.mp hinv with h1 | h2
    · obtain ⟨e, he, hadv⟩ := hex
      have hany : st.alt_quic_connection_ids_local.any
          (fun x => ! x.advertised) = true :=
        List.any_eq_true.mpr ⟨e, he, by simp [hadv]⟩
      rw [hany] at h1
      exact absurd h1 (by simp)
    · exact h2
  by_cases hm : m level = true
  · obtain ⟨p, hp⟩ := advertise_some_of_any_unadvertised f msz _ hex
    obtain ⟨l, fr0⟩ := p
    have hres : generate_frame m f level cc msz st =
        ({ st with alt_quic_connection_ids_local := l }, fr0) := by
      rw [generate_frame, if_neg (by rw [hm]; simp), if_pos hn, hp]
    rw [hres]
    refine ⟨rfl, fun fr hfr => ?_⟩
    exact advertise_frame_is_first f msz st.alt_quic_connection_ids_local l fr
      (by rw [← hfr]; exact hp)
  · have hmf : m level = false := by
      cases hq : m level with
      | true => exact absurd hq hm
      | false => rfl
    have hres : generate_frame m f level cc msz st = (st, none) := by
      rw [generate_frame, if_pos (by rw [hmf]; rfl)]
    rw [hres]
    exact ⟨rfl, fun fr hfr => absurd hfr (by simp)⟩

/-- Witness for C7: with an un-advertised pool and a queued retirement, the
poll leaves the retirement queue untouched. -/
theorem C7_advertisement_priority_witness :
    (generate_frame (fun _ => true) (fun _ => 1) 0 0 100
        (drop_cid [9]
          (mkWithPreferredEndpoint (fun k => [k + 1])
            NetVConnectionDir.NET_VCONNECTION_IN [9] 3 2
            none))).1.retired_seq_nums =
      (drop_cid [9]
        (mkWithPreferredEndpoint (fun k => [k + 1])
          NetVConnectionDir.NET_VCONNECTION_IN [9] 3 2 none)).retired_seq_nums := by
  exact (C7_advertisement_priority (fun _ => true) (fun _ => 1) 0 0 100 _
    (by decide)
    ⟨⟨1, [1], QUICStatelessResetToken.derived [1] 3, false⟩, by decide, rfl⟩).1

namespace QUICAltConnectionManager

theorem generate_alt_con_infos_seq_spec (rng : Nat → QUICConnectionId) :
    ∀ (n : Nat) (st : QUICAltConnectionManager),
      (generate_alt_con_infos rng st n).1.alt_quic_connection_id_seq_num =
        st.alt_quic_connection_id_seq_num + n ∧
      (generate_alt_con_infos rng st n).2.map (fun e => e.seq_num) =
        List.range' (st.alt_quic_connection_id_seq_num + 1) n ∧
      (generate_alt_con_infos rng st n).2.length = n
  | 0, st => ⟨rfl, rfl, rfl⟩
  | Nat.succ n, st => by
    obtain ⟨ih1, ih2, ih3⟩ := generate_alt_con_infos_seq_spec rng n
      (generate_next_alt_con_info rng st).1
    have hg : (generate_next_alt_con_info rng st).1.alt_quic_connection_id_seq_num =
        st.alt_quic_connection_id_seq_num + 1 := rfl
    refine ⟨?_, ?_, ?_⟩
    · show (generate_alt_con_infos rng
          (generate_next_alt_con_info rng st).1 n).1.alt_quic_connection_id_seq_num =
        st.alt_quic_connection_id_seq_num + (n + 1)
      rw [ih1, hg]
      omega
    · show ((generate_next_alt_con_info rng st).2 ::
          (generate_alt_con_infos rng (generate_next_alt_con_info rng st).1 n).2).map
          (fun e => e.seq_num) =
        List.range' (st.alt_quic_connection_id_seq_num + 1) (n + 1)
      rw [List.map_cons, ih2, List.range'_succ, hg]
      rfl
    · show ((generate_next_alt_con_info rng st).2 ::
          (generate_alt_con_infos rng (generate_next_alt_con_info rng st).1 n).2).length =
        n + 1
      rw [List.length_cons, ih3]

theorem register_remote_connection_id_seq (s : Nat) (c : QUICConnectionId)
    (t : QUICStatelessResetToken) (st : QUICAltConnectionManager) :
    (register_remote_connection_id s c t st).1.alt_quic_connection_id_seq_num =
      st.alt_quic_connection_id_seq_num := by
  rw [register_remote_connection_id]
  by_cases h : c = QUICConnectionId.ZERO
  · rw [if_pos h]
  · rw [if_neg h]

theorem generate_retirement_frame_seq_eq (st : QUICAltConnectionManager) :
    (generate_retirement_frame st).1.alt_quic_connection_id_seq_num =
      st.alt_quic_connection_id_seq_num := by
  cases h : st.retired_seq_nums with
  | nil => rw [generate_retirement_frame, h]
  | cons s rest =>
    rw [generate_retirement_frame, h]
    by_cases hs : s = 0
    · simp [hs]
    · simp [hs]

theorem generate_frame_seq_eq (m : QUICEncryptionLevel → Bool)
    (f : QUICFrame → Nat) (level : QUICEncryptionLevel) (cc msz : Nat)
    (st : QUICAltConnectionManager) :
    (generate_frame m f level cc msz st).1.alt_quic_connection_id_seq_num =
      st.alt_quic_connection_id_seq_num := by
  by_cases hm : m level = true
  · by_cases hn : st.need_advertise = true
    · cases ha : advertise_first_unadvertised f msz
          st.alt_quic_connection_ids_local with
      | some p =>
        obtain ⟨l, fr⟩ := p
        rw [generate_frame, if_neg (by rw [hm]; simp), if_pos hn, ha]
      | none =>
        rw [generate_frame, if_neg (by rw [hm]; simp), if_pos hn, ha]
        exact generate_retirement_frame_seq_eq _
    · rw [generate_frame, if_neg (by rw [hm]; simp), if_neg hn]
      exact generate_retirement_frame_seq_eq st
  · have hmf : m level = false := by
      cases hq : m level with
      | true => exact absurd hq hm
      | false => rfl
    rw [generate_frame, if_pos (by rw [hmf]; rfl)]

theorem drop_cid_seq_eq (cid : QUICConnectionId)
    (st : QUICAltConnectionManager) :
    (drop_cid cid st).alt_quic_connection_id_seq_num =
      st.alt_quic_connection_id_seq_num := by
  rw [drop_cid]
  cases h : remove_remote_cid cid st.alt_quic_connection_ids_remote with
  | none => rfl
  | some p =>
    obtain ⟨l, s⟩ := p
    rfl

theorem init_alt_connection_ids_seq_spec (rng : Nat → QUICConnectionId)
    (pe : Option IpEndpoint) (st : QUICAltConnectionManager) :
    (init_alt_connection_ids rng pe st).alt_quic_connection_id_seq_num =
      st.alt_quic_connection_id_seq_num + (init_issued rng pe st).length ∧
    (init_issued rng pe st).map (fun e => e.seq_num) =
      List.range' (st.alt_quic_connection_id_seq_num + 1)
        (init_issued rng pe st).length := by
  cases pe with
  | none =>
    obtain ⟨h1, h2, h3⟩ := generate_alt_con_infos_seq_spec rng st.nids st
    constructor
    · show (generate_alt_con_infos rng st
          st.nids).1.alt_quic_connection_id_seq_num =
        st.alt_quic_connection_id_seq_num +
          (generate_alt_con_infos rng st st.nids).2.length
      rw [h1, h3]
    · show (generate_alt_con_infos rng st st.nids).2.map (fun e => e.seq_num) =
        List.range' (st.alt_quic_connection_id_seq_num + 1)
          (generate_alt_con_infos rng st st.nids).2.length
      rw [h2, h3]
  | some ep =>
    obtain ⟨h1, h2, h3⟩ := generate_alt_con_infos_seq_spec rng (st.nids - 1)
      { (generate_next_alt_con_info rng st).1 with
          preferred_address := some (ep, (generate_next_alt_con_info rng st).2.id,
            (generate_next_alt_con_info rng st).2.token) }
    constructor
    · show (generate_alt_con_infos rng
          { (generate_next_alt_con_info rng st).1 with
              preferred_address := some (ep, (generate_next_alt_con_info rng st).2.id,
                (generate_next_alt_con_info rng st).2.token) }
          (st.nids - 1)).1.alt_quic_connection_id_seq_num =
        st.alt_quic_connection_id_seq_num + (init_issued rng (some ep) st).length
      rw [h1]
      have hlen : (init_issued rng (some ep) st).length =
          (generate_alt_con_infos rng
            { (generate_next_alt_con_info rng st).1 with
                preferred_address := some (ep, (generate_next_alt_con_info rng st).2.id,
                  (generate_next_alt_con_info rng st).2.token) }
            (st.nids - 1)).2.length + 1 := by
        show ((generate_next_alt_con_info rng st).2 :: _).length = _ + 1
        rw [List.length_cons]
      rw [hlen, h3]
      show st.alt_quic_connection_id_seq_num + 1 + (st.nids - 1) =
        st.alt_quic_connection_id_seq_num + (st.nids - 1 + 1)
      omega
    · have hlen : (init_issued rng (some ep) st).length =
          (generate_alt_con_infos rng
            { (generate_next_alt_con_info rng st).1 with
                preferred_address := some (ep, (generate_next_alt_con_info rng st).2.id,
                  (generate_next_alt_con_info rng st).2.token) }
            (st.nids - 1)).2.length + 1 := by
        show ((generate_next_alt_con_info rng st).2 :: _).length = _ + 1
        rw [List.length_cons]
      rw [hlen, h3]
      show ((generate_next_alt_con_info rng st).2 :: _).map (fun e => e.seq_num) =
        List.range' (st.alt_quic_connection_id_seq_num + 1) (st.nids - 1 + 1)
      rw [List.map_cons, h2, List.range'_succ]
      rfl

theorem migrate_to_alt_cid_seq_eq (rng : Nat → QUICConnectionId)
    (st : QUICAltConnectionManager) :
    (migrate_to_alt_cid rng st).1.alt_quic_connection_id_seq_num =
      (if st.direction = NetVConnectionDir.NET_VCONNECTION_OUT then
          init_alt_connection_ids rng none st
        else st).alt_quic_connection_id_seq_num := by
  rw [migrate_to_alt_cid]
  cases hp : pick_unused_alt_cid
      (if st.direction = NetVConnectionDir.NET_VCONNECTION_OUT then
          init_alt_connection_ids rng none st
        else st).alt_quic_connection_ids_remote with
  | none => rfl
  | some p =>
    obtain ⟨l, c⟩ := p
    rfl

theorem applyOp_issued_spec (rng : Nat → QUICConnectionId)
    (m : QUICEncryptionLevel → Bool) (f : QUICFrame → Nat)
    (st : QUICAltConnectionManager) (op : AltOp) :
    (applyOp rng m f st op).2.map (fun e => e.seq_num) =
      List.range' (st.alt_quic_connection_id_seq_num + 1)
        (applyOp rng m f st op).2.length ∧
    (applyOp rng m f st op).1.alt_quic_connection_id_seq_num =
      st.alt_quic_connection_id_seq_num + (applyOp rng m f st op).2.length := by
  cases op with
  | handleOp level frame =>
    cases frame with
    | new_connection_id s c t =>
      exact ⟨rfl, register_remote_connection_id_seq s c t st⟩
    | retire_connection_id s =>
      cases hf : st.alt_quic_connection_ids_local.findIdx?
          (fun e => e.seq_num == s) with
      | some i =>
        have hlog : (applyOp rng m f st
            (AltOp.handleOp level (QUICFrame.retire_connection_id s))).2 =
            [(generate_next_alt_con_info rng st).2] := by
          show (match st.alt_quic_connection_ids_local.findIdx?
              (fun e => e.seq_num == s) with
            | some _ => [(generate_next_alt_con_info rng st).2]
            | none => []) = _
          rw [hf]
        have hstate : (handle_frame rng level
            (QUICFrame.retire_connection_id s) st).1 =
            { (generate_next_alt_con_info rng st).1 with
                alt_quic_connection_ids_local :=
                  (generate_next_alt_con_info rng
                    st).1.alt_quic_connection_ids_local.set i
                    (generate_next_alt_con_info rng st).2
                need_advertise := true } := by
          show (retire_remote_connection_id rng s st).1 = _
          rw [retire_remote_connection_id, update_alt_connection_id, hf]
          rfl
        constructor
        · rw [hlog]
          rfl
        · show (handle_frame rng level
              (QUICFrame.retire_connection_id s) st).1.alt_quic_connection_id_seq_num =
            st.alt_quic_connection_id_seq_num + (applyOp rng m f st
              (AltOp.handleOp level (QUICFrame.retire_connection_id s))).2.length
          rw [hstate, hlog]
          rfl
      | none =>
        have hlog : (applyOp rng m f st
            (AltOp.handleOp level (QUICFrame.retire_connection_id s))).2 =
            [] := by
          show (match st.alt_quic_connection_ids_local.findIdx?
              (fun e => e.seq_num == s) with
            | some _ => [(generate_next_alt_con_info rng st).2]
            | none => []) = _
          rw [hf]
        have hstate : (handle_frame rng level
            (QUICFrame.retire_connection_id s) st).1 = st := by
          show (retire_remote_connection_id rng s st).1 = _
          rw [retire_remote_connection_id, update_alt_connection_id, hf]
          by_cases hs : (s == 0) = true
          · rw [if_pos hs]
            rfl
          · rw [if_neg hs]
            rfl
        constructor
        · rw [hlog]
          rfl
        · show (handle_frame rng level
              (QUICFrame.retire_connection_id s) st).1.alt_quic_connection_id_seq_num =
            st.alt_quic_connection_id_seq_num + (applyOp rng m f st
              (AltOp.handleOp level (QUICFrame.retire_connection_id s))).2.length
          rw [hstate, hlog]
          rfl
  | genFrameOp level cc msz =>
    exact ⟨rfl, generate_frame_seq_eq m f level cc msz st⟩
  | dropOp cid =>
    exact ⟨rfl, drop_cid_seq_eq cid st⟩
  | migrateOp =>
    by_cases hd : st.direction = NetVConnectionDir.NET_VCONNECTION_OUT
    · obtain ⟨h1, h2⟩ := init_alt_connection_ids_seq_spec rng none st
      constructor
      · show (if st.direction = NetVConnectionDir.NET_VCONNECTION_OUT then
              init_issued rng none st
            else []).map (fun e => e.seq_num) =
          List.range' (st.alt_quic_connection_id_seq_num + 1)
            (if st.direction = NetVConnectionDir.NET_VCONNECTION_OUT then
                init_issued rng none st
              else []).length
        rw [if_pos hd]
        exact h2
      · show (migrate_to_alt_cid rng st).1.alt_quic_connection_id_seq_num =
          st.alt_quic_connection_id_seq_num +
            (if st.direction = NetVConnectionDir.NET_VCONNECTION_OUT then
                init_issued rng none st
              else []).length
        rw [migrate_to_alt_cid_seq_eq rng st, if_pos hd, if_pos hd]
        exact h1
    · constructor
      · show (if st.direction = NetVConnectionDir.NET_VCONNECTION_OUT then
              init_issued rng none st
            else []).map (fun e => e.seq_num) =
          List.range' (st.alt_quic_connection_id_seq_num + 1)
            (if st.direction = NetVConnectionDir.NET_VCONNECTION_OUT then
                init_issued rng none st
              else []).length
        rw [if_neg hd]
        rfl
      · show (migrate_to_alt_cid rng st).1.alt_quic_connection_id_seq_num =
          st.alt_quic_connection_id_seq_num +
            (if st.direction = NetVConnectionDir.NET_VCONNECTION_OUT then
                init_issued rng none st
              else []).length
        rw [migrate_to_alt_cid_seq_eq rng st, if_neg hd, if_neg hd]
        rfl
  | initOp pe =>
    obtain ⟨h1, h2⟩ := init_alt_connection_ids_seq_spec rng pe st
    exact ⟨h2, h1⟩

theorem pairwise_lt_range' :
    ∀ (n s : Nat), List.Pairwise (fun a b => a < b) (List.range' s n)
  | 0, _ => List.Pairwise.nil
  | Nat.succ n, s => by
    rw [List.range'_succ]
    refine List.pairwise_cons.mpr ⟨?_, pairwise_lt_range' n (s + 1)⟩
    intro b hb
    have := List.mem_range'_1.mp hb
    omega

theorem pairwise_lt_head_range'_append (c k : Nat) (rest : List Nat)
    (h : List.Pairwise (fun a b => a < b) ((c + k) :: rest)) :
    List.Pairwise (fun a b => a < b)
      (c :: (List.range' (c + 1) k ++ rest)) := by
  obtain ⟨hall, hrest⟩ := List.pairwise_cons.mp h
  refine List.pairwise_cons.mpr ⟨?_, ?_⟩
  · intro b hb
    rcases List.mem_append.mp hb with h1 | h2
    · have := List.mem_range'_1.mp h1
      omega
    · have := hall b h2
      omega
  · refine List.pairwise_append.mpr
      ⟨pairwise_lt_range' k (c + 1), hrest, ?_⟩
    intro a ha b hb
    have ha' := List.mem_range'_1.mp ha
    have hb' := hall b hb
    omega

theorem traceIssuedSeqs_pairwise_lt (rng : Nat → QUICConnectionId)
    (m : QUICEncryptionLevel → Bool) (f : QUICFrame → Nat) :
    ∀ (ops : List AltOp) (st : QUICAltConnectionManager),
      List.Pairwise (fun a b => a < b)
        (st.alt_quic_connection_id_seq_num :: traceIssuedSeqs rng m f st ops)
  | [], st => by
    rw [traceIssuedSeqs]
    exact List.pairwise_cons.mpr ⟨fun b hb => absurd hb (List.not_mem_nil b),
      List.Pairwise.nil⟩
  | op :: ops, st => by
    have ih := traceIssuedSeqs_pairwise_lt rng m f ops
      (applyOp rng m f st op).1
    obtain ⟨hmap, hseq⟩ := applyOp_issued_spec rng m f st op
    rw [traceIssuedSeqs, hmap]
    exact pairwise_lt_head_range'_append st.alt_quic_connection_id_seq_num
      (applyOp rng m f st op).2.length _ (hseq ▸ ih)

end QUICAltConnectionManager

/-- Claim C8: along any trace of coordinator operations, the sequence
numbers of the entries produced by entry generation are strictly increasing
and all strictly greater than the counter value at the start of the trace —
so every generated entry carries a sequence number strictly greater than
every previously issued one and no local sequence number is assigned
twice. -/
theorem C8_issued_seq_nums_strictly_increase (rng : Nat → QUICConnectionId)
    (m : QUICEncryptionLevel → Bool) (f : QUICFrame → Nat)
    (ops : List AltOp) (st : QUICAltConnectionManager) :
    List.Pairwise (fun a b => a < b)
      (st.alt_quic_connection_id_seq_num :: traceIssuedSeqs rng m f st ops) :=
  traceIssuedSeqs_pairwise_lt rng m f ops st

end QUICAltCon
